import Mathlib

/-!
Verification of the write-ledger / rollback subsystem and the two config
patchers of `server_generate.py` (MCServerGenerator).

Python strings are modelled as `List Char` (`PyStr`), which matches Python's
view of a string as a sequence of code points and keeps every operation
kernel-computable.  Code that can raise a Python exception is modelled with
`Option`: `none` is the exception escaping the modelled fragment.
-/

set_option autoImplicit false

/-- A Python string: a sequence of characters. -/
abbrev PyStr := List Char

/-- Coerce a Lean string literal to the `PyStr` model. -/
def str (s : String) : PyStr := s.toList

/-! ## String primitives used by `server_generate.py`

`splitComment` models `line.split("#", 1)` guarded by `"#" in line`
(lines 178-182 and 512-516): the first component is the text before the
first `#`, the second is `some` of everything after it (or `none` when the
line has no `#`, modelling `comment = None`). -/

/-- Model of `line.split("#", 1)` preceded by the `"#" in line` test. -/
def splitComment (line : PyStr) : PyStr × Option PyStr :=
  if line.contains '#' then
    (line.takeWhile (fun c => c ≠ '#'), some ((line.dropWhile (fun c => c ≠ '#')).drop 1))
  else (line, none)

/-- Python `s.strip()`: remove leading and trailing whitespace. -/
def pyStrip (s : PyStr) : PyStr :=
  ((s.dropWhile Char.isWhitespace).reverse.dropWhile Char.isWhitespace).reverse

/-- Model of `len(line) - len(line.lstrip())` (line 186): the number of leading
whitespace characters of the raw line. -/
def indentOf (line : PyStr) : Nat :=
  (line.takeWhile Char.isWhitespace).length

/-- Python `s.split(sep)` for a one-character separator (used for
`level.split(".")` on line 190 and `path.split(os.path.sep)` on line 140).
`"".split(".") == [""]` in Python, hence the `[[]]` base case. -/
def splitChar (sep : Char) : PyStr → List PyStr
  | [] => [[]]
  | c :: rest =>
    if c = sep then [] :: splitChar sep rest
    else
      match splitChar sep rest with
      | h :: t => (c :: h) :: t
      | [] => [c] :: []

/-- Python `".".join(parts)`. -/
def joinDots (parts : List PyStr) : PyStr :=
  (parts.intersperse (str ".")).flatten

/-- Model of `".".join(level.split(".")[:-1])` (line 190): drop the last
dot-separated component of the current key path. -/
def popLevel (level : PyStr) : PyStr :=
  joinDots ((splitChar '.' level).dropLast)

/-- Model of `(" #" + comment if comment else "\n")` (line 196).  Python truthiness:
an empty comment string counts as falsy. -/
def reattachG : Option PyStr → PyStr
  | some c => if c = [] then str "\n" else str " #" ++ c
  | none => str "\n"

/-- Model of `(" #" + comment if comment else "")` (line 520). -/
def reattachP : Option PyStr → PyStr
  | some c => if c = [] then [] else str " #" ++ c
  | none => []

/-! ## The indented (Geyser `config.yml`) patcher, lines 173-200 -/

/-- The stripped key of a `:`-line:
`active_line.strip().split(":", 1)[0]` (line 193). -/
def keyOfG (line : PyStr) : PyStr :=
  (pyStrip (splitComment line).1).takeWhile (fun c => c ≠ ':')

/-- The loop state of the patcher in `get_spigot_geyser`:
`level` and `prev_indent` are initialised on lines 175-176; `key` is the
Python local variable `key`, which is *unbound* (`none`) until the first
line containing `:` assigns it on line 193. -/
structure GState where
  level : PyStr
  prevIndent : Nat
  key : Option PyStr
deriving DecidableEq, Repr

/-- Initial state: `level = ""`, `prev_indent = 0`, `key` unbound (lines 175-176). -/
def initG : GState := ⟨[], 0, none⟩

/-- Lines 187-190: adjust the key path for the new indentation.
`indent > prev_indent` pushes the previous `key` (raising `NameError`,
modelled as `none`, when `key` was never assigned); `indent < prev_indent`
pops one level.  The two branches are mutually exclusive. -/
def gLevelAfter (st : GState) (indent : Nat) : Option PyStr :=
  (if st.prevIndent < indent then st.key.map (fun k => st.level ++ '.' :: k)
   else some st.level).map
    (fun l => if indent < st.prevIndent then popLevel l else l)

/-- One iteration of the `for line in f` loop of `get_spigot_geyser`
(lines 177-200).  Returns the updated state plus the emitted line, or
`none` when the iteration raises (`NameError` from line 188). -/
def stepGeyser (cfg : PyStr → Option PyStr) (st : GState) (line : PyStr) :
    Option (GState × PyStr) :=
  let activeLine := (splitComment line).1
  let comment := (splitComment line).2
  if pyStrip activeLine = [] then some (st, line)
  else
    let indent := indentOf line
    match gLevelAfter st indent with
    | none => none
    | some level =>
      if activeLine.contains ':' then
        let key := keyOfG line
        match cfg ((level ++ '.' :: key).drop 1) with
        | some v =>
          some (⟨level, indent, some key⟩,
            List.replicate indent ' ' ++ key ++ str ": " ++ v ++ reattachG comment)
        | none => some (⟨level, indent, some key⟩, line)
      else some (⟨level, indent, st.key⟩, line)

/-- The whole loop from a given state, collecting the emitted lines. -/
def patchGeyserAux (cfg : PyStr → Option PyStr) (st : GState) :
    List PyStr → Option (List PyStr)
  | [] => some []
  | l :: ls =>
    match stepGeyser cfg st l with
    | none => none
    | some (st', out) =>
      match patchGeyserAux cfg st' ls with
      | none => none
      | some outs => some (out :: outs)

/-- The indented-dialect patcher of `get_spigot_geyser` (lines 173-200),
with `GEYSER_CONFIG` abstracted as the lookup `cfg`. -/
def patchGeyser (cfg : PyStr → Option PyStr) (lines : List PyStr) :
    Option (List PyStr) :=
  patchGeyserAux cfg initG lines

/-- The full key the step computes for a line (the content of `true_key`
minus its leading separator, line 194-195), `none` for blank lines and
lines without `:`.  Mirrors the key computation inside `stepGeyser`. -/
def gDerivedKey (st : GState) (line : PyStr) : Option PyStr :=
  let activeLine := (splitComment line).1
  if pyStrip activeLine = [] then none
  else
    match gLevelAfter st (indentOf line) with
    | none => none
    | some level =>
      if activeLine.contains ':' then
        some ((level ++ '.' :: keyOfG line).drop 1)
      else none

/-- The state after one iteration, independent of the override map (the
state update on lines 187-195 never consults `GEYSER_CONFIG`). -/
def gNext (st : GState) (line : PyStr) : Option GState :=
  (stepGeyser (fun _ => none) st line).map Prod.fst

/-- The full key derived for the `i`-th line of a template, starting from
state `st` (`none` when an earlier iteration raises or the line has no
key). -/
def gKeyAt : GState → List PyStr → Nat → Option PyStr
  | _, [], _ => none
  | st, l :: _, 0 => gDerivedKey st l
  | st, l :: ls, n + 1 =>
    match gNext st l with
    | some st' => gKeyAt st' ls n
    | none => none

/-! ## The flat (`server.properties`) patcher, lines 510-524 -/

/-- The unstripped key of a flat line:
`active_line.split("=", 1)[0]` (line 518). -/
def keyOfP (line : PyStr) : PyStr :=
  ((splitComment line).1).takeWhile (fun c => c ≠ '=')

/-- One iteration of the `for line in lines` loop (lines 511-524), with
`PROPERTIES` abstracted as `props`.  A non-blank line without `=` makes
`key, value = active_line.split("=", 1)` raise `ValueError` (line 518),
modelled as `none`.  When `key in PROPERTIES`, `PROPERTIES.get(key, value)`
is `PROPERTIES[key]` (line 520). -/
def stepProps (props : PyStr → Option PyStr) (line : PyStr) : Option PyStr :=
  let activeLine := (splitComment line).1
  let comment := (splitComment line).2
  if pyStrip activeLine = [] then some line
  else if activeLine.contains '=' then
    let key := keyOfP line
    match props key with
    | some v => some (key ++ '=' :: v ++ reattachP comment)
    | none => some line
  else none

/-- The flat-dialect patching loop (lines 510-524). -/
def patchProps (props : PyStr → Option PyStr) : List PyStr → Option (List PyStr)
  | [] => some []
  | l :: ls =>
    match stepProps props l with
    | none => none
    | some out =>
      match patchProps props ls with
      | none => none
      | some outs => some (out :: outs)

/-- The key of a flat line (`active_line.split("=", 1)[0]`, not stripped),
`none` for blank lines and lines without `=`. -/
def pDerivedKey (line : PyStr) : Option PyStr :=
  let activeLine := (splitComment line).1
  if pyStrip activeLine = [] then none
  else if activeLine.contains '=' then some (keyOfP line)
  else none

/-! ## The write ledger and `rollback`, lines 20-21, 44-61, 130-149 -/

/-- A deletion attempt performed by `rollback()`: `shutil.rmtree` on the
Java directory (line 48), `os.remove` on a recorded file (line 53), or
`os.rmdir` on a recorded directory (line 58). -/
inductive Del where
  | tree : PyStr → Del
  | file : PyStr → Del
  | dir : PyStr → Del
deriving DecidableEq, Repr

/-- The path a deletion attempt targets. -/
def delPath : Del → PyStr
  | .tree p => p
  | .file p => p
  | .dir p => p

/-- The sequence of deletion attempts `rollback()` performs (lines 44-61):
the Java tree when `JAVA_PATH` is truthy, then every entry of
`WRITTEN_FILES` in order, then every entry of `DIRS_CREATED` in reverse
order. -/
def rollbackAttempts (javaPath : PyStr) (writtenFiles dirsCreated : List PyStr) :
    List Del :=
  (if javaPath = [] then [] else [Del.tree javaPath])
  ++ writtenFiles.map Del.file
  ++ dirsCreated.reverse.map Del.dir

/-- Offset of the first recorded-file attempt in `rollbackAttempts`. -/
def jOff (javaPath : PyStr) : Nat := if javaPath = [] then 0 else 1

/-- The `for file in WRITTEN_FILES` loop (lines 51-55): each `os.remove`
sits in its own `try`/`except`, so the loop records an outcome per entry
and always continues. -/
def runFileLoop (ok : Del → Bool) : List PyStr → List (Del × Bool)
  | [] => []
  | f :: rest => (Del.file f, ok (Del.file f)) :: runFileLoop ok rest

/-- The `for directory in reversed(DIRS_CREATED)` loop (lines 56-60). -/
def runDirLoop (ok : Del → Bool) : List PyStr → List (Del × Bool)
  | [] => []
  | d :: rest => (Del.dir d, ok (Del.dir d)) :: runDirLoop ok rest

/-- A complete `rollback()` run, parametrised by which deletions succeed:
every attempt is paired with its outcome, and a failed attempt only
produces an error report (`false`) while the loops continue. -/
def rollbackRun (ok : Del → Bool) (javaPath : PyStr)
    (writtenFiles dirsCreated : List PyStr) : List (Del × Bool) :=
  (if javaPath = [] then []
   else [(Del.tree javaPath, ok (Del.tree javaPath))])
  ++ runFileLoop ok writtenFiles
  ++ runDirLoop ok dirsCreated.reverse

/-- The file-deletion loop against live `os.remove` semantics: removing a
path succeeds exactly when it still exists, and removes it, so a second
removal of the same path fails (`FileNotFoundError`, caught on line 54). -/
def removeFilesRun (existing : List PyStr) : List PyStr → List (PyStr × Bool)
  | [] => []
  | f :: rest =>
    if existing.contains f then (f, true) :: removeFilesRun (existing.erase f) rest
    else (f, false) :: removeFilesRun existing rest

/-- Model of `save_file` (lines 130-137) restricted to its ledger effect:
`WRITTEN_FILES.append(path)` happens after `f.write(content)` succeeds and
is skipped when the write raises `PermissionError` (the `error_level`
call only reports). -/
def save_file (writeOk : Bool) (path : PyStr) (writtenFiles : List PyStr) :
    List PyStr :=
  if writeOk then writtenFiles ++ [path] else writtenFiles

/-- The cumulative `new_path` values the `makedirs` loop visits
(lines 140-143): one per non-empty segment, each ending in `/`. -/
def mdNewPathsGo (newPath : PyStr) : List PyStr → List PyStr
  | [] => []
  | part :: rest =>
    (newPath ++ part ++ ['/']) :: mdNewPathsGo (newPath ++ part ++ ['/']) rest

/-- All cumulative `new_path` values for a path (empty path excluded:
`path[0]` on line 141 raises `IndexError` there). -/
def mdNewPaths (path : PyStr) : List PyStr :=
  match path with
  | [] => []
  | c :: _ =>
    mdNewPathsGo (if c = '/' then ['/'] else [])
      ((splitChar '/' path).filter (fun p => p ≠ []))

/-- The `for part in parts` loop of `makedirs` (lines 142-149) restricted
to its ledger effect: `DIRS_CREATED.append(new_path)` happens only when
`os.path.exists(new_path)` is false and `os.mkdir(new_path)` succeeds; a
`PermissionError` is only reported and the loop continues. -/
def mdGo (ex mkOk : PyStr → Bool) (newPath : PyStr) : List PyStr → List PyStr
  | [] => []
  | part :: rest =>
    let np := newPath ++ part ++ ['/']
    if !ex np && mkOk np then np :: mdGo ex mkOk np rest
    else mdGo ex mkOk np rest

/-- Model of `makedirs` (lines 139-149): returns the list of paths appended to
`DIRS_CREATED`, `none` for the empty path (where `path[0]` raises).
`ex` is `os.path.exists` on the pre-run filesystem (the visited
`new_path` prefixes are pairwise distinct and each is tested once, so a
static oracle is faithful), `mkOk` is whether `os.mkdir` succeeds. -/
def makedirs (ex mkOk : PyStr → Bool) (path : PyStr) : Option (List PyStr) :=
  match path with
  | [] => none
  | c :: _ =>
    some (mdGo ex mkOk (if c = '/' then ['/'] else [])
      ((splitChar '/' path).filter (fun p => p ≠ [])))

/-- The paths `get_spigot_geyser` appends to `WRITTEN_FILES` when its
writes succeed: the Geyser jar via `save_file` (line 167), the extracted
`config.yml` (line 172), and `config.yml` again via `save_file`
(line 201). -/
def geyserWrittenFiles (directory : PyStr) : List PyStr :=
  [directory ++ str "/plugins/Geyser-Spigot.jar",
   directory ++ str "/plugins/Geyser-Spigot/config.yml",
   directory ++ str "/plugins/Geyser-Spigot/config.yml"]

/-! ## Helper lemmas -/

theorem patchProps_length {props : PyStr → Option PyStr} :
    ∀ {T out : List PyStr}, patchProps props T = some out → out.length = T.length := by
  intro T
  induction T with
  | nil => intro out h; cases h; rfl
  | cons l ls ih =>
    intro out h
    unfold patchProps at h
    cases hs : stepProps props l with
    | none => rw [hs] at h; cases h
    | some o =>
      rw [hs] at h
      cases hr : patchProps props ls with
      | none => rw [hr] at h; cases h
      | some outs =>
        rw [hr] at h
        cases h
        simp [ih hr]

theorem patchGeyserAux_length {cfg : PyStr → Option PyStr} :
    ∀ {T : List PyStr} {st : GState} {out : List PyStr},
      patchGeyserAux cfg st T = some out → out.length = T.length := by
  intro T
  induction T with
  | nil => intro st out h; cases h; rfl
  | cons l ls ih =>
    intro st out h
    cases hs : stepGeyser cfg st l with
    | none => simp [patchGeyserAux, hs] at h
    | some p =>
      obtain ⟨st', o⟩ := p
      cases hr : patchGeyserAux cfg st' ls with
      | none => simp [patchGeyserAux, hs, hr] at h
      | some outs =>
        simp only [patchGeyserAux, hs, hr] at h
        cases h
        simp [ih hr]

theorem stepProps_unchanged {props : PyStr → Option PyStr} {line out : PyStr}
    (h : stepProps props line = some out)
    (hk : ∀ k, pDerivedKey line = some k → props k = none) : out = line := by
  unfold stepProps at h
  unfold pDerivedKey at hk
  by_cases hb : pyStrip (splitComment line).1 = []
  · simp only [if_pos hb] at h
    exact (Option.some.inj h).symm
  · simp only [if_neg hb] at h hk
    by_cases hc : (splitComment line).1.contains '='
    · simp only [if_pos hc] at h hk
      rw [hk (keyOfP line) rfl] at h
      exact (Option.some.inj h).symm
    · simp only [if_neg hc] at h
      cases h

theorem stepGeyser_unchanged {cfg : PyStr → Option PyStr} {st : GState} {line : PyStr}
    {st' : GState} {out : PyStr}
    (h : stepGeyser cfg st line = some (st', out))
    (hk : ∀ k, gDerivedKey st line = some k → cfg k = none) : out = line := by
  unfold stepGeyser at h
  unfold gDerivedKey at hk
  by_cases hb : pyStrip (splitComment line).1 = []
  · simp only [if_pos hb] at h
    exact (congrArg Prod.snd (Option.some.inj h)).symm
  · simp only [if_neg hb] at h hk
    cases hL : gLevelAfter st (indentOf line) with
    | none =>
      simp only [hL] at h
      exact Option.noConfusion h
    | some level =>
      simp only [hL] at h hk
      by_cases hc : (splitComment line).1.contains ':'
      · simp only [if_pos hc] at h hk
        rw [hk _ rfl] at h
        exact (congrArg Prod.snd (Option.some.inj h)).symm
      · simp only [if_neg hc] at h
        exact (congrArg Prod.snd (Option.some.inj h)).symm

theorem gNext_eq {cfg : PyStr → Option PyStr} {st : GState} {line : PyStr}
    {st' : GState} {out : PyStr}
    (h : stepGeyser cfg st line = some (st', out)) : gNext st line = some st' := by
  unfold gNext
  unfold stepGeyser at h ⊢
  by_cases hb : pyStrip (splitComment line).1 = []
  · simp only [if_pos hb] at h ⊢
    exact congrArg (fun p => some p.1) (Option.some.inj h)
  · simp only [if_neg hb] at h ⊢
    cases hL : gLevelAfter st (indentOf line) with
    | none =>
      simp only [hL] at h
      exact Option.noConfusion h
    | some level =>
      simp only [hL] at h ⊢
      by_cases hc : (splitComment line).1.contains ':'
      · simp only [if_pos hc] at h ⊢
        cases hcfg : cfg ((level ++ '.' :: keyOfG line).drop 1) with
        | some v =>
          simp only [hcfg] at h
          simp only [Option.map_some']
          exact congrArg (fun p => some p.1) (Option.some.inj h)
        | none =>
          simp only [hcfg] at h
          simp only [Option.map_some']
          exact congrArg (fun p => some p.1) (Option.some.inj h)
      · simp only [if_neg hc] at h ⊢
        simp only [Option.map_some']
        exact congrArg (fun p => some p.1) (Option.some.inj h)

theorem patchProps_get_unchanged {props : PyStr → Option PyStr} :
    ∀ {T out : List PyStr}, patchProps props T = some out →
    ∀ i (hi : i < T.length) (ho : i < out.length),
      (∀ k, pDerivedKey (T.get ⟨i, hi⟩) = some k → props k = none) →
      out.get ⟨i, ho⟩ = T.get ⟨i, hi⟩ := by
  intro T
  induction T with
  | nil => intro out h i hi ho hk; exact absurd hi (Nat.not_lt_zero i)
  | cons l ls ih =>
    intro out h i hi ho hk
    cases hs : stepProps props l with
    | none => simp [patchProps, hs] at h
    | some o =>
      cases hr : patchProps props ls with
      | none => simp [patchProps, hs, hr] at h
      | some outs =>
        simp only [patchProps, hs, hr] at h
        cases h
        cases i with
        | zero =>
          have hu := stepProps_unchanged hs (fun k hku => hk k (by simpa using hku))
          simpa using hu
        | succ n =>
          have hi' : n < ls.length := by
            simp only [List.length_cons] at hi
            omega
          have ho' : n < outs.length := by
            simp only [List.length_cons] at ho
            omega
          have := ih hr n hi' ho' (fun k hku => hk k (by simpa using hku))
          simpa using this

theorem patchGeyserAux_get_unchanged {cfg : PyStr → Option PyStr} :
    ∀ {T : List PyStr} {st : GState} {out : List PyStr},
      patchGeyserAux cfg st T = some out →
    ∀ i (hi : i < T.length) (ho : i < out.length),
      (∀ k, gKeyAt st T i = some k → cfg k = none) →
      out.get ⟨i, ho⟩ = T.get ⟨i, hi⟩ := by
  intro T
  induction T with
  | nil => intro st out h i hi ho hk; exact absurd hi (Nat.not_lt_zero i)
  | cons l ls ih =>
    intro st out h i hi ho hk
    cases hs : stepGeyser cfg st l with
    | none => simp [patchGeyserAux, hs] at h
    | some p =>
      obtain ⟨st', o⟩ := p
      cases hr : patchGeyserAux cfg st' ls with
      | none => simp [patchGeyserAux, hs, hr] at h
      | some outs =>
        simp only [patchGeyserAux, hs, hr] at h
        cases h
        cases i with
        | zero =>
          have hu := stepGeyser_unchanged hs
            (fun k hku => hk k (by simpa [gKeyAt] using hku))
          simpa using hu
        | succ n =>
          have hgn : gNext st l = some st' := gNext_eq hs
          have hi' : n < ls.length := by
            simp only [List.length_cons] at hi
            omega
          have ho' : n < outs.length := by
            simp only [List.length_cons] at ho
            omega
          have := ih hr n hi' ho' (fun k hku => hk k (by
            simp only [gKeyAt, hgn]
            exact hku))
          simpa using this

theorem stepGeyser_no_sep {cfg : PyStr → Option PyStr} {st : GState} {line : PyStr}
    (hb : pyStrip (splitComment line).1 ≠ [])
    (hc : (splitComment line).1.contains ':' = false)
    (hkey : indentOf line ≤ st.prevIndent ∨ st.key ≠ none) :
    (stepGeyser cfg st line).map Prod.snd = some line := by
  unfold stepGeyser
  have hL : ∃ level, gLevelAfter st (indentOf line) = some level := by
    unfold gLevelAfter
    rcases hkey with h | h
    · have h' : ¬ st.prevIndent < indentOf line := by omega
      simp [h']
    · cases hk : st.key with
      | none => exact absurd hk h
      | some k =>
        by_cases hlt : st.prevIndent < indentOf line
        · simp [hlt, hk]
        · simp [hlt]
  obtain ⟨level, hL⟩ := hL
  have hc' : ¬ (':' ∈ (splitComment line).1) := by simpa using hc
  simp [if_neg hb, hL, hc']

theorem patchProps_raises_of_mem {props : PyStr → Option PyStr} {line : PyStr}
    (hb : pyStrip (splitComment line).1 ≠ [])
    (hc : (splitComment line).1.contains '=' = false) :
    ∀ {T : List PyStr}, line ∈ T → patchProps props T = none := by
  have hstep : stepProps props line = none := by
    unfold stepProps
    have hc' : ¬ ('=' ∈ (splitComment line).1) := by simpa using hc
    simp [if_neg hb, hc']
  intro T
  induction T with
  | nil => intro hm; cases hm
  | cons l ls ih =>
    intro hm
    rcases List.mem_cons.mp hm with rfl | hm'
    · simp [patchProps, hstep]
    · cases hs : stepProps props l with
      | none => simp [patchProps, hs]
      | some o => simp [patchProps, hs, ih hm']

/-- Claim C1 — the claim fails on the code: in the flat `key=value` dialect a
non-blank line with no `=` makes line 518 raise `ValueError` (first
conjunct, `none` = exception), and in the indented dialect a line whose
indentation exceeds the previous line's before any keyed line has been
seen makes line 188 raise `NameError` (second conjunct).  Patching does
not always degrade to a no-op on unparsable lines. -/
theorem patch_raises_counterexample :
    patchProps (fun _ => none) [str "foo"] = none ∧
    patchGeyser (fun _ => none) [str "foo\n", str "  bar\n"] = none :=
  ⟨by decide, by decide⟩

/-- Claim C1, amended — in the indented dialect, a non-blank line with no
`:` separator is emitted unchanged and raises nothing, provided its
indentation does not exceed the previous line's or the reference key is
already bound; in the flat dialect, patching a template containing a
non-blank line with no `=` separator raises (`ValueError`). -/
theorem patch_malformed_line_behaviour :
    (∀ (cfg : PyStr → Option PyStr) (st : GState) (line : PyStr),
      pyStrip (splitComment line).1 ≠ [] →
      (splitComment line).1.contains ':' = false →
      (indentOf line ≤ st.prevIndent ∨ st.key ≠ none) →
      (stepGeyser cfg st line).map Prod.snd = some line)
    ∧ (∀ (props : PyStr → Option PyStr) (T : List PyStr) (line : PyStr),
      line ∈ T →
      pyStrip (splitComment line).1 ≠ [] →
      (splitComment line).1.contains '=' = false →
      patchProps props T = none) :=
  ⟨fun _ _ _ hb hc hkey => stepGeyser_no_sep hb hc hkey,
   fun _ _ _ hm hb hc => patchProps_raises_of_mem hb hc hm⟩

/-- Claim C1 witness: the amended claim applied to concrete inputs. -/
theorem patch_malformed_line_behaviour_witness :
    (stepGeyser (fun _ => none) initG (str "foo\n")).map Prod.snd = some (str "foo\n") ∧
    patchProps (fun _ => none) [str "port=1", str "foo"] = none :=
  ⟨patch_malformed_line_behaviour.1 (fun _ => none) initG (str "foo\n")
      (by decide) (by decide) (Or.inl (by decide)),
   patch_malformed_line_behaviour.2 (fun _ => none) [str "port=1", str "foo"] (str "foo")
      (by decide) (by decide) (by decide)⟩

/-- Claim C3 — whenever patching completes without raising, the output has
exactly as many lines as the input template, in both dialects. -/
theorem patch_preserves_line_count :
    (∀ (props : PyStr → Option PyStr) (T out : List PyStr),
      patchProps props T = some out → out.length = T.length)
    ∧ (∀ (cfg : PyStr → Option PyStr) (T out : List PyStr),
      patchGeyser cfg T = some out → out.length = T.length) :=
  ⟨fun _ _ _ h => patchProps_length h,
   fun _ _ _ h => patchGeyserAux_length (by simpa [patchGeyser] using h)⟩

/-- Claim C3 witness: the theorem applied to concrete one-line templates. -/
theorem patch_preserves_line_count_witness :
    ([str "a=2"] : List PyStr).length = ([str "a=1"] : List PyStr).length ∧
    ([str "x: 2\n"] : List PyStr).length = ([str "x: 1\n"] : List PyStr).length :=
  ⟨patch_preserves_line_count.1 (fun k => if k = str "a" then some (str "2") else none)
      [str "a=1"] [str "a=2"] (by decide),
   patch_preserves_line_count.2 (fun k => if k = str "x" then some (str "2") else none)
      [str "x: 1\n"] [str "x: 2\n"] (by decide)⟩

theorem stepGeyser_subst {cfg : PyStr → Option PyStr} {st : GState}
    {line level v : PyStr}
    (hb : pyStrip (splitComment line).1 ≠ [])
    (hc : (splitComment line).1.contains ':' = true)
    (hL : gLevelAfter st (indentOf line) = some level)
    (hv : cfg ((level ++ '.' :: keyOfG line).drop 1) = some v) :
    stepGeyser cfg st line = some (⟨level, indentOf line, some (keyOfG line)⟩,
      List.replicate (indentOf line) ' ' ++ keyOfG line ++ str ": " ++ v
        ++ reattachG (splitComment line).2) := by
  unfold stepGeyser
  have hc' : ':' ∈ (splitComment line).1 := by simpa using hc
  have hv' : cfg ((level ++ '.' :: keyOfG line).tail) = some v := by
    simpa [List.drop_one] using hv
  simp [if_neg hb, hL, hc', hv, hv']

theorem stepProps_subst {props : PyStr → Option PyStr} {line v : PyStr}
    (hb : pyStrip (splitComment line).1 ≠ [])
    (hc : (splitComment line).1.contains '=' = true)
    (hv : props (keyOfP line) = some v) :
    stepProps props line = some (keyOfP line ++ '=' :: v ++ reattachP (splitComment line).2) := by
  unfold stepProps
  have hc' : '=' ∈ (splitComment line).1 := by simpa using hc
  simp [if_neg hb, hc', hv]

/-- Claim C5 — a matched line is emitted with the original indentation width
(re-emitted as that many spaces), the stripped key, `": "`, the override's
value in place of the original value, and the original comment text
reattached after `" #"` when one is present; analogously `"="` and the
unstripped key in the flat dialect.  The last conjunct is the claim's
example: `"  max-players: 20 #comment"` under key path `bedrock` with
override `bedrock.max-players ↦ "50"` yields
`"  max-players: 50 #comment"`. -/
theorem patch_substitutes_override_value :
    (∀ (cfg : PyStr → Option PyStr) (st : GState) (line level v : PyStr),
      pyStrip (splitComment line).1 ≠ [] →
      (splitComment line).1.contains ':' = true →
      gLevelAfter st (indentOf line) = some level →
      cfg ((level ++ '.' :: keyOfG line).drop 1) = some v →
      stepGeyser cfg st line = some (⟨level, indentOf line, some (keyOfG line)⟩,
        List.replicate (indentOf line) ' ' ++ keyOfG line ++ str ": " ++ v
          ++ reattachG (splitComment line).2))
    ∧ (∀ (props : PyStr → Option PyStr) (line v : PyStr),
      pyStrip (splitComment line).1 ≠ [] →
      (splitComment line).1.contains '=' = true →
      props (keyOfP line) = some v →
      stepProps props line = some (keyOfP line ++ '=' :: v ++ reattachP (splitComment line).2))
    ∧ patchGeyser (fun k => if k = str "bedrock.max-players" then some (str "50") else none)
        [str "bedrock:\n", str "  max-players: 20 #comment"]
      = some [str "bedrock:\n", str "  max-players: 50 #comment"] :=
  ⟨fun _ _ _ _ _ hb hc hL hv => stepGeyser_subst hb hc hL hv,
   fun _ _ _ hb hc hv => stepProps_subst hb hc hv,
   by decide⟩

/-- Claim C5 witness: the substitution theorem applied to the claim's
example line (under key path `bedrock`) and to a flat properties line. -/
theorem patch_substitutes_override_value_witness :
    stepGeyser (fun k => if k = str "bedrock.max-players" then some (str "50") else none)
      ⟨[], 0, some (str "bedrock")⟩ (str "  max-players: 20 #comment")
      = some (⟨str ".bedrock", 2, some (str "max-players")⟩, str "  max-players: 50 #comment") ∧
    stepProps (fun k => if k = str "server-port" then some (str "25566") else none)
      (str "server-port=25565") = some (str "server-port=25566") :=
  ⟨(patch_substitutes_override_value.1
      (fun k => if k = str "bedrock.max-players" then some (str "50") else none)
      ⟨[], 0, some (str "bedrock")⟩ (str "  max-players: 20 #comment")
      (str ".bedrock") (str "50")
      (by decide) (by decide) (by decide) (by decide)).trans (by decide),
   (patch_substitutes_override_value.2.1
      (fun k => if k = str "server-port" then some (str "25566") else none)
      (str "server-port=25565") (str "25566")
      (by decide) (by decide) (by decide)).trans (by decide)⟩

/-- Claim C6 — whenever patching completes, every line whose derived key is
absent from the override map (in particular every blank line and every
pure-comment line, whose derived key is `none`) appears in the output
byte-identical to the input line, in both dialects. -/
theorem patch_unmatched_lines_unchanged :
    (∀ (props : PyStr → Option PyStr) (T out : List PyStr),
      patchProps props T = some out →
      ∀ i (hi : i < T.length) (ho : i < out.length),
        (∀ k, pDerivedKey (T.get ⟨i, hi⟩) = some k → props k = none) →
        out.get ⟨i, ho⟩ = T.get ⟨i, hi⟩)
    ∧ (∀ (cfg : PyStr → Option PyStr) (T out : List PyStr),
      patchGeyser cfg T = some out →
      ∀ i (hi : i < T.length) (ho : i < out.length),
        (∀ k, gKeyAt initG T i = some k → cfg k = none) →
        out.get ⟨i, ho⟩ = T.get ⟨i, hi⟩) :=
  ⟨fun _ _ _ h => patchProps_get_unchanged h,
   fun _ _ _ h => patchGeyserAux_get_unchanged (by simpa [patchGeyser] using h)⟩

/-- Claim C6 witness: in each dialect a two-line template where the first
line is patched and the second line's key is absent — the second output
line is byte-identical to the input. -/
theorem patch_unmatched_lines_unchanged_witness :
    ([str "a=9", str "b=2"] : List PyStr).get ⟨1, by decide⟩
      = ([str "a=1", str "b=2"] : List PyStr).get ⟨1, by decide⟩ ∧
    ([str "a: 9\n", str "b: 2\n"] : List PyStr).get ⟨1, by decide⟩
      = ([str "a: 1\n", str "b: 2\n"] : List PyStr).get ⟨1, by decide⟩ :=
  ⟨patch_unmatched_lines_unchanged.1
      (fun k => if k = str "a" then some (str "9") else none)
      [str "a=1", str "b=2"] [str "a=9", str "b=2"] (by decide) 1 (by decide) (by decide)
      (fun k hk => by
        have hkey : (some (str "b") : Option PyStr) = some k := by
          rw [← hk]
          decide
        injection hkey with hkey'
        subst hkey'
        decide),
   patch_unmatched_lines_unchanged.2
      (fun k => if k = str "a" then some (str "9") else none)
      [str "a: 1\n", str "b: 2\n"] [str "a: 9\n", str "b: 2\n"] (by decide) 1 (by decide) (by decide)
      (fun k hk => by
        have hkey : (some (str "b") : Option PyStr) = some k := by
          rw [← hk]
          decide
        injection hkey with hkey'
        subst hkey'
        decide)⟩

theorem gLevelAfter_dedent {st : GState} {indent : Nat} (h : indent < st.prevIndent) :
    gLevelAfter st indent = some (popLevel st.level) := by
  unfold gLevelAfter
  have h' : ¬ st.prevIndent < indent := by omega
  simp [h', h]

theorem stepGeyser_dedent_level {cfg : PyStr → Option PyStr} {st : GState}
    {line : PyStr} {st' : GState} {out : PyStr}
    (h : stepGeyser cfg st line = some (st', out))
    (hb : pyStrip (splitComment line).1 ≠ [])
    (hd : indentOf line < st.prevIndent) :
    st'.level = popLevel st.level := by
  unfold stepGeyser at h
  simp only [if_neg hb, gLevelAfter_dedent hd] at h
  by_cases hc : (splitComment line).1.contains ':'
  · simp only [hc, if_true] at h
    cases hcfg : cfg ((popLevel st.level ++ '.' :: keyOfG line).drop 1) with
    | some v =>
      rw [hcfg] at h
      exact (congrArg (fun p => p.1.level) (Option.some.inj h)).symm
    | none =>
      rw [hcfg] at h
      exact (congrArg (fun p => p.1.level) (Option.some.inj h)).symm
  · simp only [Bool.not_eq_true] at hc
    simp only [hc, if_false] at h
    exact (congrArg (fun p => p.1.level) (Option.some.inj h)).symm

theorem gDerivedKey_dedent {st : GState} {line : PyStr}
    (hb : pyStrip (splitComment line).1 ≠ [])
    (hc : (splitComment line).1.contains ':' = true)
    (hd : indentOf line < st.prevIndent) :
    gDerivedKey st line = some ((popLevel st.level ++ '.' :: keyOfG line).drop 1) := by
  unfold gDerivedKey
  have hc' : ':' ∈ (splitComment line).1 := by simpa using hc
  simp [if_neg hb, gLevelAfter_dedent hd, hc']

/-- Claim C8 — on a dedented line (indentation strictly smaller than the
previous line's) exactly one level is popped from the current key path,
and the line's full key is computed against the popped path; the last
conjunct is the two-line indented block followed by a dedented sibling,
whose key `c` is matched against the reset (top-level) path. -/
theorem dedent_pops_one_level :
    (∀ (st : GState) (indent : Nat), indent < st.prevIndent →
      gLevelAfter st indent = some (popLevel st.level))
    ∧ (∀ (cfg : PyStr → Option PyStr) (st : GState) (line : PyStr) (st' : GState) (out : PyStr),
      stepGeyser cfg st line = some (st', out) →
      pyStrip (splitComment line).1 ≠ [] →
      indentOf line < st.prevIndent →
      st'.level = popLevel st.level)
    ∧ (∀ (st : GState) (line : PyStr),
      pyStrip (splitComment line).1 ≠ [] →
      (splitComment line).1.contains ':' = true →
      indentOf line < st.prevIndent →
      gDerivedKey st line = some ((popLevel st.level ++ '.' :: keyOfG line).drop 1))
    ∧ patchGeyser (fun k => if k = str "c" then some (str "9") else none)
        [str "a:\n", str "  b: 1\n", str "c: 2\n"]
      = some [str "a:\n", str "  b: 1\n", str "c: 9\n"] :=
  ⟨fun _ _ h => gLevelAfter_dedent h,
   fun _ _ _ _ _ h hb hd => stepGeyser_dedent_level h hb hd,
   fun _ _ hb hc hd => gDerivedKey_dedent hb hc hd,
   by decide⟩

/-- Claim C8 witness: the theorem applied to the dedented sibling line
`"c: 2"` arriving from state level `".a"` at previous indent 2. -/
theorem dedent_pops_one_level_witness :
    gLevelAfter ⟨str ".a", 2, some (str "b")⟩ 0 = some (popLevel (str ".a")) ∧
    gDerivedKey ⟨str ".a", 2, some (str "b")⟩ (str "c: 2\n")
      = some ((popLevel (str ".a") ++ '.' :: keyOfG (str "c: 2\n")).drop 1) ∧
    (⟨[], 0, some (str "c")⟩ : GState).level = popLevel (str ".a") :=
  ⟨dedent_pops_one_level.1 ⟨str ".a", 2, some (str "b")⟩ 0 (by decide),
   dedent_pops_one_level.2.2.1 ⟨str ".a", 2, some (str "b")⟩ (str "c: 2\n")
      (by decide) (by decide) (by decide),
   dedent_pops_one_level.2.1 (fun _ => none) ⟨str ".a", 2, some (str "b")⟩
      (str "c: 2\n") ⟨[], 0, some (str "c")⟩ (str "c: 2\n")
      (by decide) (by decide) (by decide)⟩

/-- Claim C2 counterexample — with both ledger lists empty (so no path was
ever recorded), `rollback()` still attempts `shutil.rmtree(JAVA_PATH)`
(line 48): it performs a delete attempt on a path never passed to the
ledger. -/
theorem rollback_deletes_unrecorded_java :
    rollbackAttempts (str "srv/jdk-17") [] [] = [Del.tree (str "srv/jdk-17")] := by
  decide

/-- Claim C2, amended — every path `rollback()` attempts to delete was
recorded in `WRITTEN_FILES` or `DIRS_CREATED`, except for the Java
installation directory: when `JAVA_PATH` is non-empty, rollback
additionally attempts to delete that (unrecorded) tree. -/
theorem rollback_touches_only_recorded_or_java :
    ∀ (javaPath : PyStr) (writtenFiles dirsCreated : List PyStr) (p : PyStr),
      p ∈ (rollbackAttempts javaPath writtenFiles dirsCreated).map delPath →
      p ∈ writtenFiles ∨ p ∈ dirsCreated ∨ (javaPath ≠ [] ∧ p = javaPath) := by
  intro jp fs ds p hp
  unfold rollbackAttempts at hp
  simp only [List.map_append, List.mem_append] at hp
  rcases hp with (hp | hp) | hp
  · by_cases hj : jp = []
    · simp [hj] at hp
    · simp only [hj, if_false, List.map_cons, List.map_nil, delPath, List.mem_singleton] at hp
      exact Or.inr (Or.inr ⟨hj, hp⟩)
  · rw [List.map_map] at hp
    simp [Function.comp, delPath] at hp
    exact Or.inl hp
  · rw [List.map_map] at hp
    simp [Function.comp, delPath, List.mem_reverse] at hp
    exact Or.inr (Or.inl hp)

/-- Claim C2 witness: the amended theorem applied to a run that recorded one
file, created no directory, and installed Java. -/
theorem rollback_touches_only_recorded_or_java_witness :
    (str "f") ∈ [str "f"] ∨ (str "f") ∈ ([] : List PyStr)
      ∨ ((str "j") ≠ [] ∧ (str "f") = str "j") :=
  rollback_touches_only_recorded_or_java (str "j") [str "f"] [] (str "f") (by decide)

/-- Claim C4 — in the attempt sequence of `rollback()`, the recorded files
occupy the consecutive positions right after the optional Java deletion,
in recording order, and the recorded directories follow them with the
directory recorded at position `k` attempted at offset
`length - 1 - k` from the start of the directory block: later-recorded
(nested) directories are attempted before earlier-recorded ones. -/
theorem rollback_files_first_dirs_reversed :
    ∀ (javaPath : PyStr) (writtenFiles dirsCreated : List PyStr) (k : Nat),
      (k < writtenFiles.length →
        (rollbackAttempts javaPath writtenFiles dirsCreated)[jOff javaPath + k]?
          = (writtenFiles[k]?).map Del.file)
      ∧ (k < dirsCreated.length →
        (rollbackAttempts javaPath writtenFiles
            dirsCreated)[jOff javaPath + writtenFiles.length
              + (dirsCreated.length - 1 - k)]?
          = (dirsCreated[k]?).map Del.dir) := by
  intro jp fs ds k
  have hpre : ((if jp = [] then [] else [Del.tree jp]) : List Del).length = jOff jp := by
    unfold jOff
    by_cases hj : jp = [] <;> simp [hj]
  unfold rollbackAttempts
  constructor
  · intro hk
    rw [List.append_assoc]
    rw [List.getElem?_append_right (by rw [hpre]; omega)]
    rw [hpre]
    have hidx : jOff jp + k - jOff jp = k := by omega
    rw [hidx]
    rw [List.getElem?_append_left (by rw [List.length_map]; omega)]
    rw [List.getElem?_map]
  · intro hk
    rw [List.append_assoc]
    rw [List.getElem?_append_right (by rw [hpre]; omega)]
    rw [hpre]
    have hidx : jOff jp + fs.length + (ds.length - 1 - k) - jOff jp
        = fs.length + (ds.length - 1 - k) := by omega
    rw [hidx]
    rw [List.getElem?_append_right (by rw [List.length_map]; omega)]
    rw [List.length_map]
    have hidx2 : fs.length + (ds.length - 1 - k) - fs.length = ds.length - 1 - k := by
      omega
    rw [hidx2]
    rw [List.getElem?_map]
    rw [List.getElem?_reverse (by omega)]
    have hidx3 : ds.length - 1 - (ds.length - 1 - k) = k := by omega
    rw [hidx3]

/-- Claim C4 witness: one recorded file and two nested recorded directories
(`a/` recorded before `a/b/`): the file sits at position 1 (after the Java
tree deletion) and the later-recorded nested directory `a/b/` is attempted
before `a/`. -/
theorem rollback_files_first_dirs_reversed_witness :
    (rollbackAttempts (str "j") [str "f1"] [str "a/", str "a/b/"])[jOff (str "j") + 0]?
      = (([str "f1"] : List PyStr)[0]?).map Del.file ∧
    (rollbackAttempts (str "j") [str "f1"]
        [str "a/", str "a/b/"])[jOff (str "j") + 1 + (2 - 1 - 0)]?
      = (([str "a/", str "a/b/"] : List PyStr)[0]?).map Del.dir :=
  ⟨(rollback_files_first_dirs_reversed (str "j") [str "f1"] [str "a/", str "a/b/"] 0).1
      (by decide),
   (rollback_files_first_dirs_reversed (str "j") [str "f1"] [str "a/", str "a/b/"] 0).2
      (by decide)⟩

theorem runFileLoop_eq_map {ok : Del → Bool} :
    ∀ fs : List PyStr,
      runFileLoop ok fs = (fs.map Del.file).map (fun a => (a, ok a))
  | [] => rfl
  | f :: rest => by simp [runFileLoop, runFileLoop_eq_map rest]

theorem runDirLoop_eq_map {ok : Del → Bool} :
    ∀ ds : List PyStr,
      runDirLoop ok ds = (ds.map Del.dir).map (fun a => (a, ok a))
  | [] => rfl
  | d :: rest => by simp [runDirLoop, runDirLoop_eq_map rest]

/-- Claim C7 — rollback is best-effort: whichever deletions fail (`ok` is an
arbitrary success oracle), the run performs exactly the full attempt
sequence, in order, pairing each attempt with its reported outcome.  In
particular, a failure at the `i`-th entry never prevents entries
`i+1..n` from being attempted, and the run always terminates normally. -/
theorem rollback_best_effort_attempts_all :
    ∀ (ok : Del → Bool) (javaPath : PyStr) (writtenFiles dirsCreated : List PyStr),
      rollbackRun ok javaPath writtenFiles dirsCreated
        = (rollbackAttempts javaPath writtenFiles dirsCreated).map (fun a => (a, ok a)) := by
  intro ok jp fs ds
  by_cases hj : jp = [] <;>
    simp [rollbackRun, rollbackAttempts, hj, runFileLoop_eq_map, runDirLoop_eq_map]

theorem mdGo_eq_filter {ex mkOk : PyStr → Bool} :
    ∀ (parts : List PyStr) (acc : PyStr),
      mdGo ex mkOk acc parts
        = (mdNewPathsGo acc parts).filter (fun p => !ex p && mkOk p) := by
  intro parts
  induction parts with
  | nil => intro acc; rfl
  | cons part rest ih =>
    intro acc
    unfold mdGo mdNewPathsGo
    by_cases h : (!ex (acc ++ part ++ ['/']) && mkOk (acc ++ part ++ ['/'])) = true
    · simp [List.filter_cons, h, ih]
    · simp only [Bool.not_eq_true] at h
      simp [List.filter_cons, h, ih]

/-- Claim C9 — the ledger records exactly what the current run created:
`save_file` appends the path to `WRITTEN_FILES` precisely when the write
succeeds (nothing on a permission error), and `makedirs` appends to
`DIRS_CREATED` exactly the visited path prefixes that did not already
exist and whose `mkdir` succeeded — never a pre-existing directory. -/
theorem ledger_records_iff_created :
    (∀ (path : PyStr) (written : List PyStr),
      save_file true path written = written ++ [path])
    ∧ (∀ (path : PyStr) (written : List PyStr),
      save_file false path written = written)
    ∧ (∀ (ex mkOk : PyStr → Bool) (path : PyStr) (ds : List PyStr),
      makedirs ex mkOk path = some ds →
      ds = (mdNewPaths path).filter (fun p => !ex p && mkOk p)) :=
  ⟨fun _ _ => rfl, fun _ _ => rfl,
   fun ex mkOk path ds h => by
     cases path with
     | nil => cases h
     | cons c rest =>
       simp only [makedirs] at h
       cases h
       simp only [mdNewPaths]
       exact mdGo_eq_filter _ _⟩

/-- Claim C9 witness: creating `a/b` when `a/` already exists records only
`a/b/`, the one segment actually created. -/
theorem ledger_records_iff_created_witness :
    ([str "a/b/"] : List PyStr)
      = (mdNewPaths (str "a/b")).filter (fun p => !(p == str "a/") && true) :=
  ledger_records_iff_created.2.2 (fun p => p == str "a/") (fun _ => true)
    (str "a/b") [str "a/b/"] (by decide)

/-- Claim C10 — the file ledger of `get_spigot_geyser` records `config.yml`
twice (extraction on line 172 and `save_file` on line 201); against live
`os.remove` semantics the second removal of the duplicate fails and is
reported, while every entry of the ledger — including entries after the
failure — is still attempted. -/
theorem rollback_handles_duplicate_entries :
    (∀ (existing files : List PyStr),
      (removeFilesRun existing files).map Prod.fst = files)
    ∧ geyserWrittenFiles (str "srv")
      = [str "srv/plugins/Geyser-Spigot.jar",
         str "srv/plugins/Geyser-Spigot/config.yml",
         str "srv/plugins/Geyser-Spigot/config.yml"]
    ∧ removeFilesRun
        [str "srv/plugins/Geyser-Spigot.jar",
         str "srv/plugins/Geyser-Spigot/config.yml",
         str "srv/start.sh"]
        (geyserWrittenFiles (str "srv") ++ [str "srv/start.sh"])
      = [(str "srv/plugins/Geyser-Spigot.jar", true),
         (str "srv/plugins/Geyser-Spigot/config.yml", true),
         (str "srv/plugins/Geyser-Spigot/config.yml", false),
         (str "srv/start.sh", true)] := by
  refine ⟨?_, by decide, by decide⟩
  intro existing files
  induction files generalizing existing with
  | nil => rfl
  | cons f rest ih =>
    unfold removeFilesRun
    by_cases h : f ∈ existing
    · simp [h, ih]
    · simp [h, ih]
